import Mathlib

/-!
Verification of the TMWheelsESP32 firmware core (src/TMWheels/TMWheels.ino):
a shallow embedding of the decode-identify-map-diff pipeline of `loop()`,
together with theorems about identification, change detection, hat
conversion and the disconnect-recovery behaviour.

Modelling conventions:
* bytes are `Nat` values (reads deliver values below 256; all uses mask
  with constants below 256, so no explicit truncation is needed);
* the external report sink (`bleGamepad.press/release/setHat1`) is
  modelled by an `Event` list in call order;
* `convertHat`'s local `hatstate` variable is uninitialised when its
  argument is outside {0,1,2,3}; it is modelled as `Option Int`, with
  `none` standing for the uninitialised read;
* `HAT_CENTERED` is the constant of the external BleGamepad library
  (value 0), distinct from the four direction codes.
-/

/-- One polarity-corrected 5-byte frame, as held in `currBytes[0..4]`. -/
structure Frame where
  b0 : Nat
  b1 : Nat
  b2 : Nat
  b3 : Nat
  b4 : Nat
deriving DecidableEq, Repr

/-- Indexing `currBytes[i]`; the sketch only uses indices 0..4. -/
def byteAt (f : Frame) : Nat → Nat
  | 0 => f.b0
  | 1 => f.b1
  | 2 => f.b2
  | 3 => f.b3
  | 4 => f.b4
  | _ => 0

/-- The bit-mask table `pos[] = {0x80, 0x40, 0x20, 0x10, 0x08, 0x04, 0x02, 0x01}`. -/
def pos : List Nat := [0x80, 0x40, 0x20, 0x10, 0x08, 0x04, 0x02, 0x01]

/-- Lookup `pos[b]`. -/
def posAt (b : Nat) : Nat := pos.getD b 0

/-- The centered hat code of the external BleGamepad library (HAT_CENTERED = 0). -/
def HAT_CENTERED : Int := 0

/-- One call into the external report sink: `setButton(n, st)`
(release when `st = false`, press when `st = true`) or `setHat1 v`
(`v = none` models sending the uninitialised `hatstate`). -/
inductive Event where
  | button : Int → Bool → Event
  | hat : Option Int → Event
deriving DecidableEq, Repr

/-- Initial contents of the working array `bit2btn` (line 98): all unmapped. -/
def bit2btnInit : List Int :=
  [-1,-1,-1,-1,-1,-1,-1,-1,  -1,-1,-1,-1,-1,-1,-1,-1,  -1,-1,-1,-1,-1,-1,-1,-1,  -1,-1,-1,-1,-1,-1,-1,-1]

/-- Button numbers of the Ferrari 599xx wheel (line 99). -/
def F599Btn : List Int :=
  [-1,-1,-1,0,1,2,3,4,  5,6,7,8,9,-1,-1,12,  33,32,34,31,-1,-1,-1,-1,  -1,-1,-1,-1,-1,-1,-1,-1]

/-- Button numbers of the R383 wheel (line 100). -/
def R383Btn : List Int :=
  [-1,-1,-1,-1,-1,-1,-1,5,  1,4,8,-1,6,12,7,-1,  2,9,34,31,32,33,3,0,  -1,-1,-1,-1,-1,-1,-1,-1]

/-- Button numbers of the F1 wheel (line 101). -/
def F1Btn : List Int :=
  [4,-1,-1,-1,0,1,2,3,  12,5,6,7,8,9,10,11,  17,33,32,34,31,18,19,20,  -1,15,13,14,16,-1,-1,-1]

/-- The source's `convertHat` (lines 310-328): four independent `if`s
assigning the local `hatstate`, which stays uninitialised (`none`) when
`hat` is outside {0,1,2,3}; the final value is sent to `setHat1`. -/
def convertHat (hat : Int) : Option Int :=
  let hatstate : Option Int := none
  let hatstate := if hat = 0 then some 1 else hatstate
  let hatstate := if hat = 1 then some 3 else hatstate
  let hatstate := if hat = 2 then some 5 else hatstate
  let hatstate := if hat = 3 then some 7 else hatstate
  hatstate

/-- Body of the per-bit diff (lines 273-282): the event emitted for byte `i`,
bit-mask index `b`, or `none` when the masked bit did not change. -/
def eventAt (tbl : List Int) (prev curr : Frame) (i b : Nat) : Option Event :=
  if byteAt curr i &&& posAt b ≠ byteAt prev i &&& posAt b then
    let btnState : Bool := byteAt curr i &&& posAt b != 0
    let e : Int := tbl.getD (i * 8 + b) (-1)
    if 31 ≤ e ∧ e ≤ 34 then
      if btnState = false then some (Event.hat (some HAT_CENTERED))
      else some (Event.hat (convertHat (e - 31)))
    else some (Event.button e btnState)
  else none

/-- The full diff loop (lines 270-282): bytes 0..3 outer, bit masks 0..7 inner. -/
def diffEvents (tbl : List Int) (prev curr : Frame) : List Event :=
  (List.range 4).flatMap fun i => (List.range 8).filterMap fun b => eventAt tbl prev curr i b

/-- The R383 synthetic hat-centre push (line 285):
`(currBytes[3] & pos[0]) && !(currBytes[2] & 0x3c)`. -/
def joyState (c : Frame) : Bool :=
  (byteAt c 3 &&& posAt 0 != 0) && (byteAt c 2 &&& 0x3C == 0)

/-- The absence test of the `while` loop (lines 189 and 232):
`(wheelbyte != 192) and (wheelbyte != 160) and (wheelbyte != 32)`. -/
def wheelAbsent (f : Frame) : Bool :=
  (f.b0 &&& 0xE0 != 192) && (f.b0 &&& 0xE0 != 160) && (f.b0 &&& 0xE0 != 32)

/-- The one-time safe reset (lines 195-199): hat centered, then
buttons 0..20 released one at a time. -/
def resetEvents : List Event :=
  Event.hat (some HAT_CENTERED) :: ((List.range 21).map fun b => Event.button b false)

/-- Result of running the absence `while` loop (lines 189-235). -/
structure LoopResult where
  curr : Frame
  identified : Bool
  buttonsreset : Bool
  events : List Event
  stuck : Bool
deriving DecidableEq, Repr

/-- The absence `while` loop (lines 189-235): while the header of the
current frame matches none of {192, 160, 32}, clear `wheelIdentified`,
issue the safe reset once (guarded by `buttonsreset`), and read the next
frame.  The loop consumes frames from `frames`; `stuck = true` records
that the supplied reads ran out while the header was still unrecognized
(the real device would block reading further frames). -/
def absenceLoop (frames : List Frame) (curr : Frame) (identified buttonsreset : Bool) :
    LoopResult :=
  if wheelAbsent curr = true then
    let ev := if buttonsreset = true then [] else resetEvents
    match frames with
    | [] => ⟨curr, false, true, ev, true⟩
    | f :: rest =>
      let r := absenceLoop rest f false true
      ⟨r.curr, r.identified, r.buttonsreset, ev ++ r.events, r.stuck⟩
  else ⟨curr, identified, buttonsreset, [], false⟩

/-- The identification-relevant globals: `wheelIdentified`, `wheelID`, `bit2btn`. -/
structure IdState where
  wheelIdentified : Bool
  wheelID : Int
  bit2btn : List Int
deriving DecidableEq, Repr

/-- The identification chain (lines 237-259), kept exactly as written in the
source: the R383 and F1 branches sit in `else` branches of the
`wheelIdentified == false` test, so they are only evaluated when the wheel
is already identified, and the F1 branch additionally requires
`wheelbyte == 32` inside the `else` of a test that already consumed
`wheelbyte == 32`. -/
def identify (s : IdState) (f : Frame) : IdState :=
  if s.wheelIdentified = false then
    if f.b0 &&& 0xE0 = 160 ∧ f.b4 &&& 0x0F = 0 then ⟨true, 2, F599Btn⟩
    else s
  else if f.b0 &&& 0xE0 = 32 then
    if (f.b3 &&& 0x20 = 0 ∧ f.b4 &&& 0x0F = 0) ∨ (f.b3 = 255 ∧ f.b4 = 255) then ⟨true, 3, R383Btn⟩
    else s
  else if f.b0 &&& 0xE0 = 32 ∧ f.b4 &&& 0x0F = 15 then ⟨true, 1, F1Btn⟩
  else s

/-- The globals of the sketch that survive across `loop()` iterations. -/
structure MachineState where
  prevBytes : Frame
  wheelIdentified : Bool
  wheelID : Int
  bit2btn : List Int
  joyBtnState : Bool
  prevJoyBtnState : Bool
deriving DecidableEq, Repr

/-- Result of one `loop()` iteration. -/
structure CycleResult where
  state : MachineState
  events : List Event
  stuck : Bool
deriving DecidableEq, Repr

/-- The diff block guard (line 270): the per-bit diff runs only when
`wheelIdentified` holds after identification. -/
def identifiedDiff (s : MachineState) (idSt : IdState) (curr : Frame) : List Event :=
  if idSt.wheelIdentified = true then diffEvents idSt.bit2btn s.prevBytes curr else []

/-- The value of the global `joyBtnState` after lines 284-288: re-computed
only for the identified R383 wheel (`wheelID == 3`), otherwise left as is. -/
def postJoy (s : MachineState) (idSt : IdState) (curr : Frame) : Bool :=
  if idSt.wheelIdentified = true ∧ idSt.wheelID = 3 then joyState curr else s.joyBtnState

/-- The synthetic hat-centre-push emission of lines 284-288: for the
identified R383 wheel, `setButton(13, joyBtnState)` when the recomputed
`joyBtnState` differs from `prevJoyBtnState`. -/
def joyEvents (s : MachineState) (idSt : IdState) (curr : Frame) : List Event :=
  if idSt.wheelIdentified = true ∧ idSt.wheelID = 3 ∧ postJoy s idSt curr ≠ s.prevJoyBtnState then
    [Event.button 13 (postJoy s idSt curr)]
  else []

/-- One `loop()` iteration (lines 153-298) while the BLE link is up:
`f` is the frame produced by the first 5-byte read, `extras` the frames
produced by the re-reads inside the absence loop.  After the absence loop
comes identification, the per-bit diff (only when identified), the R383
synthetic hat-centre button, and the end-of-cycle updates of `prevBytes`
and `prevJoyBtnState`.  When the absence loop runs out of supplied reads
(`stuck`), the remainder of the iteration does not run. -/
def cycle (s : MachineState) (f : Frame) (extras : List Frame) : CycleResult :=
  let r := absenceLoop extras f s.wheelIdentified false
  if r.stuck = true then
    ⟨{ s with wheelIdentified := r.identified }, r.events, true⟩
  else
    let idSt := identify ⟨r.identified, s.wheelID, s.bit2btn⟩ r.curr
    ⟨{ prevBytes := r.curr, wheelIdentified := idSt.wheelIdentified, wheelID := idSt.wheelID,
       bit2btn := idSt.bit2btn, joyBtnState := postJoy s idSt r.curr,
       prevJoyBtnState := postJoy s idSt r.curr },
     r.events ++ identifiedDiff s idSt r.curr ++ joyEvents s idSt r.curr, false⟩

/-! Helper lemmas shared by the claim theorems. -/

theorem eventAt_of_changed (tbl : List Int) (prev curr : Frame) (i b : Nat)
    (hne : byteAt curr i &&& posAt b ≠ byteAt prev i &&& posAt b) :
    eventAt tbl prev curr i b =
      (if 31 ≤ tbl.getD (i * 8 + b) (-1) ∧ tbl.getD (i * 8 + b) (-1) ≤ 34 then
        if (byteAt curr i &&& posAt b != 0) = false then some (Event.hat (some HAT_CENTERED))
        else some (Event.hat (convertHat (tbl.getD (i * 8 + b) (-1) - 31)))
      else some (Event.button (tbl.getD (i * 8 + b) (-1)) (byteAt curr i &&& posAt b != 0))) := by
  unfold eventAt
  rw [if_pos hne]

theorem eventAt_of_unchanged (tbl : List Int) (prev curr : Frame) (i b : Nat)
    (heq : byteAt curr i &&& posAt b = byteAt prev i &&& posAt b) :
    eventAt tbl prev curr i b = none := by
  unfold eventAt
  rw [if_neg (fun h => h heq)]

theorem diffEvents_self (tbl : List Int) (f : Frame) : diffEvents tbl f f = [] := by
  unfold diffEvents
  apply List.flatMap_eq_nil_iff.mpr
  intro i _
  apply List.filterMap_eq_nil_iff.mpr
  intro b _
  exact eventAt_of_unchanged tbl f f i b rfl

theorem identify_identify (t : IdState) (f : Frame) :
    identify (identify t f) f = identify t f := by
  by_cases hid : t.wheelIdentified = false
  · by_cases hC : f.b0 &&& 0xE0 = 160 ∧ f.b4 &&& 0x0F = 0
    · have h1 : identify t f = ⟨true, 2, F599Btn⟩ := by
        unfold identify
        rw [if_pos hid, if_pos hC]
      rw [h1]
      unfold identify
      rw [if_neg (by decide), if_neg (by omega), if_neg (fun h => by omega)]
    · have h1 : identify t f = t := by
        unfold identify
        rw [if_pos hid, if_neg hC]
      rw [h1]
      exact h1
  · by_cases h32 : f.b0 &&& 0xE0 = 32
    · by_cases hR : (f.b3 &&& 0x20 = 0 ∧ f.b4 &&& 0x0F = 0) ∨ (f.b3 = 255 ∧ f.b4 = 255)
      · have h1 : identify t f = ⟨true, 3, R383Btn⟩ := by
          unfold identify
          rw [if_neg hid, if_pos h32, if_pos hR]
        rw [h1]
        unfold identify
        rw [if_neg (by decide), if_pos h32, if_pos hR]
      · have h1 : identify t f = t := by
          unfold identify
          rw [if_neg hid, if_pos h32, if_neg hR]
        rw [h1]
        exact h1
    · have h1 : identify t f = t := by
        unfold identify
        rw [if_neg hid, if_neg h32, if_neg (fun h => h32 h.1)]
      rw [h1]
      exact h1

theorem absenceLoop_no_more_resets (frames : List Frame) :
    ∀ curr : Frame, (absenceLoop frames curr false true).events = [] := by
  induction frames with
  | nil =>
    intro curr
    unfold absenceLoop
    by_cases h : wheelAbsent curr = true
    · rw [if_pos h]
      rfl
    · rw [if_neg h]
  | cons g rest ih =>
    intro curr
    unfold absenceLoop
    by_cases h : wheelAbsent curr = true
    · rw [if_pos h]
      show [] ++ (absenceLoop rest g false true).events = []
      rw [List.nil_append]
      exact ih g
    · rw [if_neg h]

theorem mem_absenceLoop_events (frames : List Frame) :
    ∀ (curr : Frame) (idf br : Bool) (ev : Event),
      ev ∈ (absenceLoop frames curr idf br).events → ev ∈ resetEvents := by
  induction frames with
  | nil =>
    intro curr idf br ev h
    unfold absenceLoop at h
    by_cases h1 : wheelAbsent curr = true
    · rw [if_pos h1] at h
      have h2 : ev ∈ (if br = true then ([] : List Event) else resetEvents) := h
      split_ifs at h2
      · cases h2
      · exact h2
    · rw [if_neg h1] at h
      cases (show ev ∈ ([] : List Event) from h)
  | cons g rest ih =>
    intro curr idf br ev h
    unfold absenceLoop at h
    by_cases h1 : wheelAbsent curr = true
    · rw [if_pos h1] at h
      have h2 : ev ∈ (if br = true then ([] : List Event) else resetEvents) ++
          (absenceLoop rest g false true).events := h
      rcases List.mem_append.mp h2 with hl | hr
      · split_ifs at hl
        · cases hl
        · exact hl
      · exact ih g false true ev hr
    · rw [if_neg h1] at h
      cases (show ev ∈ ([] : List Event) from h)

theorem filterMap_eq_of_single {α β : Type} (f : α → Option β) (l : List α)
    (x : α) (ev : β) (hnd : l.Nodup) (hmem : x ∈ l) (hfx : f x = some ev)
    (hother : ∀ y ∈ l, y ≠ x → f y = none) :
    l.filterMap f = [ev] := by
  induction l with
  | nil => cases hmem
  | cons a t ih =>
    obtain ⟨hax, hnt⟩ := List.nodup_cons.mp hnd
    rw [List.filterMap_cons]
    rcases List.mem_cons.mp hmem with rfl | hxt
    · rw [hfx]
      have ht : t.filterMap f = [] :=
        List.filterMap_eq_nil_iff.mpr fun y hy =>
          hother y (List.mem_cons_of_mem _ hy) fun hyx => hax (hyx ▸ hy)
      rw [ht]
    · have hne : a ≠ x := fun h => hax (h ▸ hxt)
      rw [hother a (List.mem_cons_self a t) hne]
      exact ih hnt hxt fun y hy hyx => hother y (List.mem_cons_of_mem _ hy) hyx

theorem flatMap_eq_of_single {α β : Type} (g : α → List β) (l : List α)
    (x : α) (ev : β) (hnd : l.Nodup) (hmem : x ∈ l) (hgx : g x = [ev])
    (hother : ∀ y ∈ l, y ≠ x → g y = []) :
    l.flatMap g = [ev] := by
  induction l with
  | nil => cases hmem
  | cons a t ih =>
    obtain ⟨hax, hnt⟩ := List.nodup_cons.mp hnd
    rw [List.flatMap_cons]
    rcases List.mem_cons.mp hmem with rfl | hxt
    · rw [hgx]
      have ht : t.flatMap g = [] :=
        List.flatMap_eq_nil_iff.mpr fun y hy =>
          hother y (List.mem_cons_of_mem _ hy) fun hyx => hax (hyx ▸ hy)
      rw [ht]
      rfl
    · have hne : a ≠ x := fun h => hax (h ▸ hxt)
      rw [hother a (List.mem_cons_self a t) hne]
      simpa using ih hnt hxt fun y hy hyx => hother y (List.mem_cons_of_mem _ hy) hyx

theorem convertHat_isSome (e : Int) (h31 : 31 ≤ e) (h34 : e ≤ 34) :
    (convertHat (e - 31)).isSome = true := by
  have he : e = 31 ∨ e = 32 ∨ e = 33 ∨ e = 34 := by omega
  rcases he with rfl | rfl | rfl | rfl <;> decide

theorem table_entry_cases :
    ∀ idx : Nat, idx < 32 →
      (F599Btn.getD idx (-1) = -1 ∨
        (31 ≤ F599Btn.getD idx (-1) ∧ F599Btn.getD idx (-1) ≤ 34) ∨
        (0 ≤ F599Btn.getD idx (-1) ∧ F599Btn.getD idx (-1) ≤ 20)) ∧
      (R383Btn.getD idx (-1) = -1 ∨
        (31 ≤ R383Btn.getD idx (-1) ∧ R383Btn.getD idx (-1) ≤ 34) ∨
        (0 ≤ R383Btn.getD idx (-1) ∧ R383Btn.getD idx (-1) ≤ 20)) ∧
      (F1Btn.getD idx (-1) = -1 ∨
        (31 ≤ F1Btn.getD idx (-1) ∧ F1Btn.getD idx (-1) ≤ 34) ∨
        (0 ≤ F1Btn.getD idx (-1) ∧ F1Btn.getD idx (-1) ≤ 20)) := by
  decide

theorem cycle_of_loop (s : MachineState) (f : Frame) (extras : List Frame)
    (c : Frame) (idf br : Bool) (ev : List Event)
    (h : absenceLoop extras f s.wheelIdentified false = ⟨c, idf, br, ev, false⟩) :
    cycle s f extras =
      ⟨⟨c, (identify ⟨idf, s.wheelID, s.bit2btn⟩ c).wheelIdentified,
        (identify ⟨idf, s.wheelID, s.bit2btn⟩ c).wheelID,
        (identify ⟨idf, s.wheelID, s.bit2btn⟩ c).bit2btn,
        postJoy s (identify ⟨idf, s.wheelID, s.bit2btn⟩ c) c,
        postJoy s (identify ⟨idf, s.wheelID, s.bit2btn⟩ c) c⟩,
       ev ++ identifiedDiff s (identify ⟨idf, s.wheelID, s.bit2btn⟩ c) c
          ++ joyEvents s (identify ⟨idf, s.wheelID, s.bit2btn⟩ c) c, false⟩ := by
  unfold cycle
  rw [h]
  rfl

theorem absenceLoop_sane (frames : List Frame) (f : Frame) (idf br : Bool)
    (hf : wheelAbsent f = false) :
    absenceLoop frames f idf br = ⟨f, idf, br, [], false⟩ := by
  unfold absenceLoop
  rw [if_neg (by simp [hf])]

theorem identify_F599 (s : IdState) (f : Frame) (hid : s.wheelIdentified = false)
    (h1 : f.b0 &&& 0xE0 = 160) (h2 : f.b4 &&& 0x0F = 0) :
    identify s f = ⟨true, 2, F599Btn⟩ := by
  unfold identify
  rw [hid]
  simp [h1, h2]

theorem hat_of_mem_resetEvents (v : Option Int) (h : Event.hat v ∈ resetEvents) :
    v = some HAT_CENTERED := by
  unfold resetEvents at h
  rcases List.mem_cons.mp h with h1 | h2
  · injection h1
  · exfalso
    rw [List.mem_map] at h2
    obtain ⟨x, _, hx⟩ := h2
    exact Event.noConfusion hx

theorem hat_of_mem_diffEvents (tbl : List Int) (prev curr : Frame) (v : Option Int)
    (h : Event.hat v ∈ diffEvents tbl prev curr) : v.isSome = true := by
  unfold diffEvents at h
  rw [List.mem_flatMap] at h
  obtain ⟨i, hi, h⟩ := h
  rw [List.mem_filterMap] at h
  obtain ⟨b, hb, hev⟩ := h
  by_cases hne : byteAt curr i &&& posAt b ≠ byteAt prev i &&& posAt b
  · rw [eventAt_of_changed tbl prev curr i b hne] at hev
    split_ifs at hev with hrange hbs
    · injection hev with h1
      injection h1 with h2
      rw [← h2]
      rfl
    · injection hev with h1
      injection h1 with h2
      rw [← h2]
      exact convertHat_isSome _ hrange.1 hrange.2
    · exfalso
      injection hev with h1
      exact Event.noConfusion h1
  · rw [eventAt_of_unchanged tbl prev curr i b (not_ne_iff.mp hne)] at hev
    cases hev

/-- Claim C8: across the three per-variant tables, the bit position carrying
the left paddle maps to the same canonical value (0, i.e. published button 1)
in every table, and the right paddle likewise maps to 1 (published button 2).
The bit positions come from the published tables in the source header comment:
599xx left/right paddle at byte 0 bits 4/3 (indices 3/4), R383 at
byte 2 bit 0 and byte 1 bit 7 (indices 23/8), F1 at byte 0 bits 3/2
(indices 4/5); table values use the 0-based internal numbering, published
button n being internal value n - 1. -/
theorem c8_paddles_consistent :
    F599Btn.getD 3 (-1) = 0 ∧ R383Btn.getD 23 (-1) = 0 ∧ F1Btn.getD 4 (-1) = 0 ∧
    F599Btn.getD 4 (-1) = 1 ∧ R383Btn.getD 8 (-1) = 1 ∧ F1Btn.getD 5 (-1) = 1 := by
  decide

/-- Claim C9: from the unidentified state, any frame whose header
`byte0 & 0xE0` is 160 and whose `byte4 & 0x0F` is 0 is identified as the
599xx wheel (`wheelID = 2`, spec VariantC) in that same cycle, regardless
of all remaining bits, and no other identification rule can preempt it. -/
theorem c9_variantC_identification (s : IdState) (f : Frame)
    (hid : s.wheelIdentified = false)
    (h1 : f.b0 &&& 0xE0 = 160) (h2 : f.b4 &&& 0x0F = 0) :
    identify s f = ⟨true, 2, F599Btn⟩ :=
  identify_F599 s f hid h1 h2

/-- Witness for C9 at the concrete frame (0xA0, 0x55, 0xAA, 0x13, 0xF0). -/
theorem c9_variantC_identification_witness :
    identify ⟨false, 0, bit2btnInit⟩ ⟨0xA0, 0x55, 0xAA, 0x13, 0xF0⟩ = ⟨true, 2, F599Btn⟩ :=
  c9_variantC_identification ⟨false, 0, bit2btnInit⟩ ⟨0xA0, 0x55, 0xAA, 0x13, 0xF0⟩
    rfl (by decide) (by decide)

/-- Claim C2, evaluated on the code: from the unidentified state the frame
(0x20, 0, 0, 0, 0x0F) — header 32, aux5 15, the F1 signature — does NOT
identify any wheel in that cycle: the `identify` chain leaves the state
unchanged, because the F1 branch sits behind `wheelIdentified == true`
and behind an `else if` that already consumed every header-32 frame. -/
theorem c2_f1_not_identified :
    identify ⟨false, 0, bit2btnInit⟩ ⟨0x20, 0, 0, 0, 0x0F⟩ = ⟨false, 0, bit2btnInit⟩ ∧
    (cycle ⟨⟨0x20, 0, 0, 0, 0x0F⟩, false, 0, bit2btnInit, false, false⟩
      ⟨0x20, 0, 0, 0, 0x0F⟩ []).state.wheelIdentified = false := by
  constructor
  · rfl
  · rfl

/-- Claim C3, evaluated on the code: from the unidentified state neither the
frame (0x20, 0, 0, 0, 0) — header 32, aux4 0, aux5 0 — nor the escape
pattern (0x20, 0, 0, 0xFF, 0xFF) identifies the R383 wheel: the R383
branch is only evaluated when `wheelIdentified` is already true, so both
frames leave the unidentified state unchanged. -/
theorem c3_r383_not_identified :
    identify ⟨false, 0, bit2btnInit⟩ ⟨0x20, 0, 0, 0, 0⟩ = ⟨false, 0, bit2btnInit⟩ ∧
    identify ⟨false, 0, bit2btnInit⟩ ⟨0x20, 0, 0, 0xFF, 0xFF⟩ = ⟨false, 0, bit2btnInit⟩ ∧
    (cycle ⟨⟨0x20, 0, 0, 0, 0⟩, false, 0, bit2btnInit, false, false⟩
      ⟨0x20, 0, 0, 0, 0⟩ []).state.wheelIdentified = false := by
  refine ⟨rfl, rfl, rfl⟩

/-- Claim C5: whenever the frame header `byte0 & 0xE0` matches none of
{192, 160, 32}, the absence loop releases all 21 canonical buttons and
centers the hat exactly once, on its first iteration (the `buttonsreset`
guard), and issues no further reset on any subsequent attempt while the
device remains unrecognized: the events of the whole absence episode are
exactly `resetEvents`, for every sequence of follow-up reads and every
prior identification flag. -/
theorem c5_reset_exactly_once (frames : List Frame) (f : Frame) (idf : Bool)
    (habs : wheelAbsent f = true) :
    (absenceLoop frames f idf false).events = resetEvents := by
  unfold absenceLoop
  rw [if_pos habs]
  cases frames with
  | nil => rfl
  | cons g rest =>
    show resetEvents ++ (absenceLoop rest g false true).events = resetEvents
    rw [absenceLoop_no_more_resets rest g, List.append_nil]

/-- Witness for C5: a concrete absence episode of three unrecognized reads
emits the safe reset exactly once. -/
theorem c5_reset_exactly_once_witness :
    (absenceLoop [⟨0, 0, 0, 0, 0⟩, ⟨0xFF, 0xFF, 0xFF, 0xFF, 0xFF⟩] ⟨0x40, 0, 0, 0, 0⟩
      true false).events = resetEvents :=
  c5_reset_exactly_once [⟨0, 0, 0, 0, 0⟩, ⟨0xFF, 0xFF, 0xFF, 0xFF, 0xFF⟩] ⟨0x40, 0, 0, 0, 0⟩
    true (by decide)

/-- Claim C7: when a hat-tagged table entry (in [31, 34]) changes, the
emitted hat value is the centered code whenever the bit became inactive,
regardless of any previous direction (the previous frame appears only
through the changed bit); otherwise the raw direction codes 0, 1, 2, 3 are
converted by `convertHat` to the canonical codes 1, 3, 5, 7; and the
centered code is none of {1, 3, 5, 7}. -/
theorem c7_hat_conversion :
    (∀ (tbl : List Int) (prev curr : Frame) (i b : Nat),
      31 ≤ tbl.getD (i * 8 + b) (-1) → tbl.getD (i * 8 + b) (-1) ≤ 34 →
      byteAt curr i &&& posAt b ≠ byteAt prev i &&& posAt b →
      eventAt tbl prev curr i b =
        some (if byteAt curr i &&& posAt b = 0 then Event.hat (some HAT_CENTERED)
              else Event.hat (convertHat (tbl.getD (i * 8 + b) (-1) - 31)))) ∧
    convertHat 0 = some 1 ∧ convertHat 1 = some 3 ∧
    convertHat 2 = some 5 ∧ convertHat 3 = some 7 ∧
    HAT_CENTERED ≠ 1 ∧ HAT_CENTERED ≠ 3 ∧ HAT_CENTERED ≠ 5 ∧ HAT_CENTERED ≠ 7 := by
  refine ⟨?_, by decide, by decide, by decide, by decide, by decide, by decide, by decide,
    by decide⟩
  intro tbl prev curr i b h31 h34 hne
  rw [eventAt_of_changed tbl prev curr i b hne, if_pos ⟨h31, h34⟩]
  by_cases hz : byteAt curr i &&& posAt b = 0
  · simp [hz]
  · simp [hz]

/-- Witness for C7 at a concrete changed hat bit: table entry 33 at
position (2, 0) of the 599xx table, bit becoming active. -/
theorem c7_hat_conversion_witness :
    eventAt F599Btn ⟨0xA0, 0, 0, 0, 0⟩ ⟨0xA0, 0, 0x80, 0, 0⟩ 2 0 =
      some (if byteAt ⟨0xA0, 0, 0x80, 0, 0⟩ 2 &&& posAt 0 = 0 then Event.hat (some HAT_CENTERED)
            else Event.hat (convertHat (F599Btn.getD (2 * 8 + 0) (-1) - 31))) :=
  c7_hat_conversion.1 F599Btn ⟨0xA0, 0, 0, 0, 0⟩ ⟨0xA0, 0, 0x80, 0, 0⟩ 2 0
    (by decide) (by decide) (by decide)

/-- Claim C10: every hat value sent during any `loop()` iteration is an
initialised one (`isSome`): the only call site of `convertHat` guards the
table entry to lie in [31, 34] and passes entry minus 31, so the
uninitialised branch of `convertHat` (modelled by `none`) is unreachable,
and the remaining hat emissions send the centered constant. -/
theorem c10_hat_always_initialized (s : MachineState) (f : Frame) (extras : List Frame)
    (v : Option Int) (hmem : Event.hat v ∈ (cycle s f extras).events) :
    v.isSome = true := by
  unfold cycle at hmem
  by_cases hstuck : (absenceLoop extras f s.wheelIdentified false).stuck = true
  · rw [if_pos hstuck] at hmem
    have hmem2 : Event.hat v ∈ (absenceLoop extras f s.wheelIdentified false).events := hmem
    have hv := hat_of_mem_resetEvents v
      (mem_absenceLoop_events extras f s.wheelIdentified false _ hmem2)
    rw [hv]
    rfl
  · rw [if_neg hstuck] at hmem
    have hmem2 : Event.hat v ∈
        (absenceLoop extras f s.wheelIdentified false).events ++
        identifiedDiff s
          (identify ⟨(absenceLoop extras f s.wheelIdentified false).identified, s.wheelID,
            s.bit2btn⟩ (absenceLoop extras f s.wheelIdentified false).curr)
          (absenceLoop extras f s.wheelIdentified false).curr ++
        joyEvents s
          (identify ⟨(absenceLoop extras f s.wheelIdentified false).identified, s.wheelID,
            s.bit2btn⟩ (absenceLoop extras f s.wheelIdentified false).curr)
          (absenceLoop extras f s.wheelIdentified false).curr := hmem
    rcases List.mem_append.mp hmem2 with h12 | hJ
    · rcases List.mem_append.mp h12 with hR | hD
      · have hv := hat_of_mem_resetEvents v
          (mem_absenceLoop_events extras f s.wheelIdentified false _ hR)
        rw [hv]
        rfl
      · unfold identifiedDiff at hD
        split_ifs at hD
        · exact hat_of_mem_diffEvents _ _ _ v hD
        · cases hD
    · unfold joyEvents at hJ
      split_ifs at hJ
      · simp at hJ
      · cases hJ

/-- Witness for C10: the hat-centered emission of a reset cycle carries an
initialised value. -/
theorem c10_hat_always_initialized_witness :
    Event.hat (some HAT_CENTERED) ∈
      (cycle ⟨⟨0, 0, 0, 0, 0⟩, false, 0, bit2btnInit, false, false⟩ ⟨0, 0, 0, 0, 0⟩ []).events ∧
    (some HAT_CENTERED).isSome = true :=
  ⟨by decide,
   c10_hat_always_initialized ⟨⟨0, 0, 0, 0, 0⟩, false, 0, bit2btnInit, false, false⟩
     ⟨0, 0, 0, 0, 0⟩ [] (some HAT_CENTERED) (by decide)⟩

/-- Claim C6 (both halves).  First: feeding the same sane frame on two
consecutive cycles produces zero emissions on the second cycle — no button
event, no hat event, and no R383 synthetic hat-centre-push event.  Second:
when exactly one bit among the first 4 bytes changes and its table entry
is mapped (not −1), the diff emits exactly one event, the active form of
its target when the bit became 1 and the inactive form when it became 0. -/
theorem c6_idempotence_and_single_transition :
    (∀ (s : MachineState) (f : Frame), wheelAbsent f = false →
      (cycle (cycle s f []).state f []).events = []) ∧
    (∀ (tbl : List Int) (prev curr : Frame) (i b : Nat),
      i < 4 → b < 8 →
      byteAt curr i &&& posAt b ≠ byteAt prev i &&& posAt b →
      (∀ j c, j < 4 → c < 8 → (j, c) ≠ (i, b) →
        byteAt curr j &&& posAt c = byteAt prev j &&& posAt c) →
      0 ≤ tbl.getD (i * 8 + b) (-1) →
      diffEvents tbl prev curr =
        [if 31 ≤ tbl.getD (i * 8 + b) (-1) ∧ tbl.getD (i * 8 + b) (-1) ≤ 34 then
          if (byteAt curr i &&& posAt b != 0) = false then Event.hat (some HAT_CENTERED)
          else Event.hat (convertHat (tbl.getD (i * 8 + b) (-1) - 31))
        else Event.button (tbl.getD (i * 8 + b) (-1)) (byteAt curr i &&& posAt b != 0)]) := by
  constructor
  · intro s f hf
    rw [cycle_of_loop s f [] f s.wheelIdentified false []
      (absenceLoop_sane [] f s.wheelIdentified false hf)]
    set t : IdState := ⟨s.wheelIdentified, s.wheelID, s.bit2btn⟩ with ht
    set u : IdState := identify t f with hu
    show (cycle ⟨f, u.wheelIdentified, u.wheelID, u.bit2btn, postJoy s u f, postJoy s u f⟩
      f []).events = []
    rw [cycle_of_loop ⟨f, u.wheelIdentified, u.wheelID, u.bit2btn, postJoy s u f, postJoy s u f⟩
      f [] f u.wheelIdentified false []
      (absenceLoop_sane [] f u.wheelIdentified false hf)]
    show [] ++
        identifiedDiff ⟨f, u.wheelIdentified, u.wheelID, u.bit2btn, postJoy s u f, postJoy s u f⟩
          (identify ⟨u.wheelIdentified, u.wheelID, u.bit2btn⟩ f) f ++
        joyEvents ⟨f, u.wheelIdentified, u.wheelID, u.bit2btn, postJoy s u f, postJoy s u f⟩
          (identify ⟨u.wheelIdentified, u.wheelID, u.bit2btn⟩ f) f = []
    have hu2 : identify ⟨u.wheelIdentified, u.wheelID, u.bit2btn⟩ f = u := by
      rw [hu]
      exact identify_identify t f
    rw [hu2]
    have hdiff : identifiedDiff
        ⟨f, u.wheelIdentified, u.wheelID, u.bit2btn, postJoy s u f, postJoy s u f⟩ u f = [] := by
      unfold identifiedDiff
      split_ifs
      · exact diffEvents_self u.bit2btn f
      · rfl
    have hjoy : joyEvents
        ⟨f, u.wheelIdentified, u.wheelID, u.bit2btn, postJoy s u f, postJoy s u f⟩ u f = [] := by
      unfold joyEvents
      have hneg : ¬(u.wheelIdentified = true ∧ u.wheelID = 3 ∧
          postJoy ⟨f, u.wheelIdentified, u.wheelID, u.bit2btn, postJoy s u f, postJoy s u f⟩ u f ≠
            (⟨f, u.wheelIdentified, u.wheelID, u.bit2btn, postJoy s u f, postJoy s u f⟩ :
              MachineState).prevJoyBtnState) := by
        rintro ⟨hidp, hw3, hne⟩
        apply hne
        unfold postJoy
        rw [if_pos ⟨hidp, hw3⟩]
        show joyState f = postJoy s u f
        unfold postJoy
        rw [if_pos ⟨hidp, hw3⟩]
      rw [if_neg hneg]
    rw [hdiff, hjoy]
    rfl
  · intro tbl prev curr i b hi hb hne hsame hmapped
    unfold diffEvents
    apply flatMap_eq_of_single _ _ i _ (List.nodup_range 4) (List.mem_range.mpr hi)
    · apply filterMap_eq_of_single _ _ b _ (List.nodup_range 8) (List.mem_range.mpr hb)
      · rw [eventAt_of_changed tbl prev curr i b hne]
        split_ifs <;> rfl
      · intro c hc hcb
        exact eventAt_of_unchanged tbl prev curr i c
          (hsame i c hi (List.mem_range.mp hc) fun h2 => hcb (congrArg Prod.snd h2))
    · intro j hj hji
      apply List.filterMap_eq_nil_iff.mpr
      intro c hc
      exact eventAt_of_unchanged tbl prev curr j c
        (hsame j c (List.mem_range.mp hj) (List.mem_range.mp hc)
          fun h2 => hji (congrArg Prod.fst h2))

/-- Witness for C6: a second cycle on the repeated concrete frame
(0xC0, 1, 2, 3, 4) emits nothing. -/
theorem c6_idempotence_and_single_transition_witness :
    (cycle (cycle ⟨⟨0, 0, 0, 0, 0⟩, false, 0, bit2btnInit, false, false⟩ ⟨0xC0, 1, 2, 3, 4⟩ []).state
      ⟨0xC0, 1, 2, 3, 4⟩ []).events = [] :=
  c6_idempotence_and_single_transition.1 ⟨⟨0, 0, 0, 0, 0⟩, false, 0, bit2btnInit, false, false⟩
    ⟨0xC0, 1, 2, 3, 4⟩ (by decide)

/-- Counterexample to claim C1 as stated: with the 599xx wheel identified,
a change on a bit whose table entry is −1 (position 13: byte 1, mask 0x04)
is NOT dropped silently — the cycle forwards a button event with
index −1 downstream. -/
theorem c1_unmapped_counterexample :
    (cycle ⟨⟨0xA0, 0, 0, 0, 0⟩, true, 2, F599Btn, false, false⟩ ⟨0xA0, 0x04, 0, 0, 0⟩ []).events
      = [Event.button (-1) true] := by
  decide

/-- Claim C1 as amended: a changed bit whose table entry is −1 is forwarded
as `setButton(-1, state)` (never as a hat event and never dropped); and
every event the diff emits for the three variant tables is either a hat
event or a button event whose index is −1 or lies in [0, 20] — so no
in-range button index outside [0, 20] is ever forwarded. -/
theorem c1_unmapped_forwarded :
    (∀ (tbl : List Int) (prev curr : Frame) (i b : Nat),
      tbl.getD (i * 8 + b) (-1) = -1 →
      byteAt curr i &&& posAt b ≠ byteAt prev i &&& posAt b →
      eventAt tbl prev curr i b =
        some (Event.button (-1) (byteAt curr i &&& posAt b != 0))) ∧
    (∀ (tbl : List Int) (prev curr : Frame) (ev : Event),
      (tbl = F599Btn ∨ tbl = R383Btn ∨ tbl = F1Btn) →
      ev ∈ diffEvents tbl prev curr →
      (∃ v, ev = Event.hat v) ∨
        ∃ n st, ev = Event.button n st ∧ (n = -1 ∨ (0 ≤ n ∧ n ≤ 20))) := by
  constructor
  · intro tbl prev curr i b hm hne
    rw [eventAt_of_changed tbl prev curr i b hne, hm]
    rw [if_neg (by decide)]
  · intro tbl prev curr ev htbl hmem
    unfold diffEvents at hmem
    rw [List.mem_flatMap] at hmem
    obtain ⟨i, hi, hmem⟩ := hmem
    rw [List.mem_filterMap] at hmem
    obtain ⟨b, hb, hev⟩ := hmem
    rw [List.mem_range] at hi hb
    by_cases hne : byteAt curr i &&& posAt b ≠ byteAt prev i &&& posAt b
    · rw [eventAt_of_changed tbl prev curr i b hne] at hev
      split_ifs at hev with hrange hbs
      · left
        refine ⟨some HAT_CENTERED, ?_⟩
        injection hev with h1
        exact h1.symm
      · left
        refine ⟨convertHat (tbl.getD (i * 8 + b) (-1) - 31), ?_⟩
        injection hev with h1
        exact h1.symm
      · right
        refine ⟨tbl.getD (i * 8 + b) (-1), byteAt curr i &&& posAt b != 0, ?_, ?_⟩
        · injection hev with h1
          exact h1.symm
        · have hidx : i * 8 + b < 32 := by omega
          have hcases := table_entry_cases (i * 8 + b) hidx
          rcases htbl with rfl | rfl | rfl
          · rcases hcases.1 with h | h | h
            · exact Or.inl h
            · exact absurd h hrange
            · exact Or.inr h
          · rcases hcases.2.1 with h | h | h
            · exact Or.inl h
            · exact absurd h hrange
            · exact Or.inr h
          · rcases hcases.2.2 with h | h | h
            · exact Or.inl h
            · exact absurd h hrange
            · exact Or.inr h
    · rw [eventAt_of_unchanged tbl prev curr i b (not_ne_iff.mp hne)] at hev
      cases hev

/-- Witness for the amended C1 at the concrete unmapped change of the
counterexample cycle. -/
theorem c1_unmapped_forwarded_witness :
    eventAt F599Btn ⟨0xA0, 0, 0, 0, 0⟩ ⟨0xA0, 0x04, 0, 0, 0⟩ 1 5 =
      some (Event.button (-1) (byteAt ⟨0xA0, 0x04, 0, 0, 0⟩ 1 &&& posAt 5 != 0)) :=
  c1_unmapped_forwarded.1 F599Btn ⟨0xA0, 0, 0, 0, 0⟩ ⟨0xA0, 0x04, 0, 0, 0⟩ 1 5
    (by decide) (by decide)

/-- Counterexample to claim C4 as stated: `prevBytes` is not refreshed
during an absence episode, so the first re-identified cycle diffs the new
frame against the frame stored before the disconnect.  Concretely, with
pre-disconnect frame (0xA0, 0x08, 0, 0, 0) held in `prevBytes`, a cycle
that reads garbage, then re-identifies on (0xA0, 0, 0, 0, 0), emits the
release of button 9 — an event derived purely from the stale comparison,
since the identical cycle whose `prevBytes` already equals the new frame
emits only the reset. -/
theorem c4_stale_diff_counterexample :
    (cycle ⟨⟨0xA0, 0x08, 0, 0, 0⟩, true, 2, F599Btn, false, false⟩ ⟨0, 0, 0, 0, 0⟩
        [⟨0xA0, 0, 0, 0, 0⟩]).events = resetEvents ++ [Event.button 9 false] ∧
    (cycle ⟨⟨0xA0, 0, 0, 0, 0⟩, true, 2, F599Btn, false, false⟩ ⟨0, 0, 0, 0, 0⟩
        [⟨0xA0, 0, 0, 0, 0⟩]).events = resetEvents := by
  constructor
  · decide
  · decide

/-- Claim C4 as amended: on the first cycle in which the wheel is
re-identified after an absence episode, differencing uses the frame stored
before the disconnect as the previous frame — the cycle events are the
one-time reset followed by the diff of the newly read frame against the
pre-disconnect `prevBytes` — and only the end of that cycle installs the
new frame as `prevBytes`. -/
theorem c4_stale_prev_frame (s : MachineState) (f S : Frame)
    (habs : wheelAbsent f = true) (hdr : S.b0 &&& 0xE0 = 160) (haux : S.b4 &&& 0x0F = 0) :
    (cycle s f [S]).events = resetEvents ++ diffEvents F599Btn s.prevBytes S ∧
    (cycle s f [S]).state.prevBytes = S := by
  have hS : wheelAbsent S = false := by
    unfold wheelAbsent
    rw [hdr]
    rfl
  have hloop : absenceLoop [S] f s.wheelIdentified false = ⟨S, false, true, resetEvents, false⟩ := by
    unfold absenceLoop
    rw [if_pos habs]
    show (⟨(absenceLoop [] S false true).curr, (absenceLoop [] S false true).identified,
        (absenceLoop [] S false true).buttonsreset,
        resetEvents ++ (absenceLoop [] S false true).events,
        (absenceLoop [] S false true).stuck⟩ : LoopResult) =
      ⟨S, false, true, resetEvents, false⟩
    rw [absenceLoop_sane [] S false true hS]
    rfl
  rw [cycle_of_loop s f [S] S false true resetEvents hloop]
  have hid : identify ⟨false, s.wheelID, s.bit2btn⟩ S = ⟨true, 2, F599Btn⟩ :=
    identify_F599 ⟨false, s.wheelID, s.bit2btn⟩ S rfl hdr haux
  constructor
  · show resetEvents ++
        identifiedDiff s (identify ⟨false, s.wheelID, s.bit2btn⟩ S) S ++
        joyEvents s (identify ⟨false, s.wheelID, s.bit2btn⟩ S) S =
      resetEvents ++ diffEvents F599Btn s.prevBytes S
    rw [hid]
    have hD : identifiedDiff s (⟨true, 2, F599Btn⟩ : IdState) S =
        diffEvents F599Btn s.prevBytes S := by
      unfold identifiedDiff
      rw [if_pos rfl]
    have hJ : joyEvents s (⟨true, 2, F599Btn⟩ : IdState) S = [] := by
      unfold joyEvents
      have hneg : ¬((⟨true, 2, F599Btn⟩ : IdState).wheelIdentified = true ∧
          (⟨true, 2, F599Btn⟩ : IdState).wheelID = 3 ∧
          postJoy s ⟨true, 2, F599Btn⟩ S ≠ s.prevJoyBtnState) := by
        rintro ⟨h1, h2, h3⟩
        exact absurd h2 (by decide)
      rw [if_neg hneg]
    rw [hD, hJ, List.append_nil]
  · rfl

/-- Witness for the amended C4 at the concrete re-identification scenario of
the counterexample. -/
theorem c4_stale_prev_frame_witness :
    (cycle ⟨⟨0xA0, 0x08, 0, 0, 0⟩, true, 2, F599Btn, false, false⟩ ⟨0, 0, 0, 0, 0⟩
        [⟨0xA0, 0, 0, 0, 0⟩]).events
      = resetEvents ++ diffEvents F599Btn ⟨0xA0, 0x08, 0, 0, 0⟩ ⟨0xA0, 0, 0, 0, 0⟩ ∧
    (cycle ⟨⟨0xA0, 0x08, 0, 0, 0⟩, true, 2, F599Btn, false, false⟩ ⟨0, 0, 0, 0, 0⟩
        [⟨0xA0, 0, 0, 0, 0⟩]).state.prevBytes = ⟨0xA0, 0, 0, 0, 0⟩ :=
  c4_stale_prev_frame ⟨⟨0xA0, 0x08, 0, 0, 0⟩, true, 2, F599Btn, false, false⟩ ⟨0, 0, 0, 0, 0⟩
    ⟨0xA0, 0, 0, 0, 0⟩ (by decide) (by decide) (by decide)
